import Mathlib

/-
Verification of ci/build_test.py and cx_Freeze/winversioninfo.py.

Python strings are modelled as lists of characters (type Str below); the
Python builtins used by the code (str.split with a one-character separator,
str.startswith, str.lower, str.islower, str.replace with one-character
arguments, the substring test of the in operator, str.join) are embedded as
executable functions on Str.  Machinery that lives outside the repository
(the packaging library, the json module together with the conda build
regex, and the operating system's process launcher) is abstracted: parsing
of a requirement string by packaging.requirements.Requirement, the python
version check of packaging.specifiers, and the json scan of a conda search
are fields of the context record, and every subprocess.run call draws its
exit code and stdout from an oracle indexed by the number of calls made so
far, while the invocation itself (argument vector and optional environment)
is recorded in a trace.
-/

namespace BuildTest

/-- Python strings, modelled as lists of characters. -/
abbrev Str := List Char

/-- Abbreviation turning a Lean string literal into the Str model. -/
def lit (s : String) : Str := s.toList

/-- Python str.split(sep) for a one-character separator: List.splitOn has
exactly Python's semantics (empty input gives one empty part, consecutive
separators give empty parts). -/
def pySplit (c : Char) (s : Str) : List Str := s.splitOn c

/-- Python str.startswith. -/
def pyStarts (pre s : Str) : Bool := pre.isPrefixOf s

/-- Python str.lower, for the ASCII names that occur in the code. -/
def pyLower (s : Str) : Str := s.map Char.toLower

/-- Python str.islower: true when every cased character is lower case and at
least one cased character exists (ASCII model). -/
def pyIslower (s : Str) : Bool :=
  s.any (fun c => c.isLower) && s.all (fun c => !c.isUpper)

/-- Python str.replace(old, new) for one-character old and new. -/
def pyReplace (old new : Char) (s : Str) : Str :=
  s.map (fun c => if c = old then new else c)

/-- Python substring containment, needle in hay. -/
def pyInStr (needle hay : Str) : Bool :=
  hay.tails.any (fun t => needle.isPrefixOf t)

/-- Python truthiness of an optional list argument: None and the empty list
are falsy. -/
def otruthy (o : Option (List Str)) : Bool :=
  match o with
  | none => false
  | some l => !l.isEmpty

/-- Value of an optional list argument once known truthy. -/
def oget (o : Option (List Str)) : List Str := o.getD []

/-!  is_supported_platform, ci/build_test.py lines 73-96.  -/

/-- Argument union str | list[str] | None of is_supported_platform. -/
inductive PlatArg where
  | noneArg : PlatArg
  | strArg : Str → PlatArg
  | listArg : List Str → PlatArg

/-- Embedding of is_supported_platform (ci/build_test.py lines 73-96).  The
platform_in_use parameter stands for the value after the None-default
resolution of lines 80-88 (one of linux, macos, mingw, windows picked from
the ambient platform constants); the Python sets platform_support,
platform_yes and platform_not are modelled as lists, membership being all
that is used. -/
def is_supported_platform (platform : PlatArg) (platform_in_use : Str) : Bool :=
  let platformL : Option (List Str) :=
    match platform with
    | PlatArg.strArg s => some (pySplit ',' s)
    | PlatArg.noneArg => none
    | PlatArg.listArg l => some l
  match platformL with
  | none => true
  | some l =>
    if l.isEmpty then true
    else
      let platform_support : List Str :=
        [lit "linux", lit "macos", lit "mingw", lit "windows"]
      let platform_yes := l.filter (fun p => !pyStarts (lit "!") p)
      let support1 :=
        if !platform_yes.isEmpty then platform_yes else platform_support
      let platform_not :=
        (l.filter (fun p => pyStarts (lit "!") p)).map (fun p => p.drop 1)
      let support2 :=
        if !platform_not.isEmpty then
          support1.filter (fun p => !platform_not.contains p)
        else support1
      support2.contains platform_in_use

/-!  MSYS2 candidate-name generation, ci/build_test.py lines 236-251.  -/

/-- Embedding of the candidate-name list built for a package on the
MSYS2/MinGW backend (ci/build_test.py lines 236-251): python-name and name,
then their lower-cased forms when the name is not already lower case, then
the hyphenated (resp. underscored) forms of everything collected so far when
the name contains an underscore (resp. a hyphen). -/
def msys2Candidates (package : Str) : List Str :=
  let packages : List Str := [lit "python-" ++ package, package]
  let packages :=
    if !pyIslower package then packages ++ packages.map pyLower else packages
  let packages :=
    if package.contains '_' then
      packages ++ packages.map (pyReplace '_' '-')
    else if package.contains '-' then
      packages ++ packages.map (pyReplace '-' '_')
    else packages
  packages

/-!  Data model of install_requirements, ci/build_test.py lines 107-346.  -/

/-- Result of parsing one requirement token with
packaging.requirements.Requirement (or with the fallback class of lines
120-125 when packaging is absent): the two projections the code uses are
require.name and str(require). -/
structure Req where
  name : Str
  str : Str
deriving DecidableEq, Repr

/-- The fallback Requirement class of ci/build_test.py lines 120-125: name
is the whole token and str returns it unchanged. -/
def plainReq (s : Str) : Req := { name := s, str := s }

/-- A process environment (os.environ or one of its copies), as an
association list from variable names to values. -/
abbrev Env := List (Str × Str)

/-- Assignment env[k] = v on an environment mapping: replace the binding in
place when the key is present (dict keys are unique), append it otherwise. -/
def envSet : Env → Str → Str → Env
  | [], k, v => [(k, v)]
  | (k0, v0) :: rest, k, v =>
    if k0 = k then (k0, v) :: rest else (k0, v0) :: envSet rest k v

/-- Lookup env.get(k) on an environment mapping. -/
def envGet : Env → Str → Option Str
  | [], _ => none
  | (k0, v0) :: rest, k => if k0 = k then some v0 else envGet rest k

/-- Exit code and captured stdout of one subprocess.run call. -/
structure ExecResult where
  returncode : Int
  stdout : Str
deriving DecidableEq, Repr

/-- One recorded subprocess.run call: the argument vector and the env
keyword (none when the call inherits the process environment). -/
structure Invocation where
  args : List Str
  env : Option Env
deriving DecidableEq, Repr

/-- Subprocess state: the trace of calls made so far and the index of the
next call. -/
structure St where
  trace : List Invocation
  k : Nat
deriving DecidableEq, Repr

/-- Outcomes of the external world: call number n returns oracle n. -/
abbrev Oracle := Nat → ExecResult

/-- Embedding of subprocess.run: record the invocation and consume the next
oracle outcome. -/
def runProc (oracle : Oracle) (st : St) (args : List Str) (env : Option Env) :
    ExecResult × St :=
  (oracle st.k, { trace := st.trace ++ [{ args := args, env := env }], k := st.k + 1 })

/-- Read-only environment context of the module, detected once at process
start (ci/build_test.py lines 34-63), together with the embeddings of the
external libraries: parseReq models packaging.requirements.Requirement,
python_supported models is_supported_python (lines 99-104, the
packaging.specifiers membership test after quote stripping, true when
packaging is absent), and conda_find_url models the json scan of lines
204-211 (json.loads of a successful conda search plus the
RE_CONDA_BUILD_PYVER match against the running interpreter, returning the
url of the first matching build file, if any). -/
structure Ctx where
  is_conda : Bool
  is_mingw : Bool
  is_final_version : Bool
  pip_upgrade : Bool
  conda_exe : Str
  sys_pfx : Str
  sys_executable : Str
  mingw_package_pfx : Str
  pip_command : List Str
  platform_in_use : Str
  os_environ : Env
  parseReq : Str → Req
  python_supported : Str → Bool
  conda_find_url : Str → Str → Option Str

/-- Command stem pip_install of line 130. -/
def pip_install (ctx : Ctx) : List Str := ctx.pip_command ++ [lit "install"]

/-- Command stem pacman_args of line 131. -/
def pacman_args : List Str :=
  [lit "pacman", lit "--noconfirm", lit "--needed", lit "-S"]

/-- Command stem pacman_search of line 132. -/
def pacman_search : List Str := [lit "pacman", lit "--noconfirm", lit "-Ss"]

/-- Command stem conda_install of lines 133-134. -/
def conda_install (ctx : Ctx) : List Str :=
  [ctx.conda_exe, lit "install", lit "--prefix", ctx.sys_pfx, lit "-y", lit "-q"]
    ++ [lit "--no-channel-priority", lit "-S"]

/-- Command stem conda_search of line 135. -/
def conda_search (ctx : Ctx) : List Str :=
  [ctx.conda_exe, lit "search", lit "--override-channels"]

/-- One parsed requirement directive: the per-requirement variables
initialized at ci/build_test.py lines 141-151 and filled by the token loop
of lines 152-174.  upgrade starts from the PIP_UPGRADE truthiness, so it has
no default here and is supplied at initialization. -/
structure Directive where
  alias_for_conda : Option Str := none
  alias_for_mingw : Option Str := none
  no_deps : Bool := false
  platform : Option Str := none
  python_version : Option Str := none
  only_binary : Bool := false
  pre_release : Bool := false
  prefer_binary : Bool := false
  upgrade : Bool
  require : Option Req := none

/-- Embedding of one iteration of the token loop (ci/build_test.py lines
152-174).  req_data.split("=", 1)[1] after a --conda= or --mingw= match is
the suffix past the first equals sign, hence drop 8; --platform= uses
split("=")[1], the segment between the first two equals signs;
--python-version keeps the raw remainder of the token. -/
def parseToken (ctx : Ctx) (d : Directive) (t : Str) : Directive :=
  if pyStarts (lit "--conda=") t then { d with alias_for_conda := some (t.drop 8) }
  else if pyStarts (lit "--mingw=") t then { d with alias_for_mingw := some (t.drop 8) }
  else if t = lit "--no-deps" then { d with no_deps := true }
  else if pyStarts (lit "--platform=") t then
    { d with platform := some ((pySplit '=' t).getD 1 []) }
  else if pyStarts (lit "--python-version") t then
    { d with python_version := some (t.drop 16) }
  else if t = lit "--only-binary" then { d with only_binary := true }
  else if t = lit "--pre" then { d with pre_release := true }
  else if t = lit "--prefer-binary" then { d with prefer_binary := true }
  else if t = lit "--upgrade" then { d with upgrade := true }
  else if t ≠ [] then { d with require := some (ctx.parseReq t) }
  else d

/-- Embedding of the directive parse of one requirement line: fold the token
loop over req.split(" "), starting from the initial values of lines 141-151
(upgrade = PIP_UPGRADE). -/
def parseDirective (ctx : Ctx) (req : Str) : Directive :=
  (pySplit ' ' req).foldl (parseToken ctx) { upgrade := ctx.pip_upgrade }

/-- The platform filter of line 175, with the None-or-string argument. -/
def platformOk (ctx : Ctx) (p : Option Str) : Bool :=
  is_supported_platform
    (match p with
     | none => PlatArg.noneArg
     | some s => PlatArg.strArg s)
    ctx.platform_in_use

/-- The python-version filter of line 177: skip only when python_version is
truthy (set and not empty) and is_supported_python rejects it. -/
def pySkipPython (ctx : Ctx) (pv : Option Str) : Bool :=
  match pv with
  | none => false
  | some s => !s.isEmpty && !ctx.python_supported s

/-- Accumulated state of one install_requirements call: the subprocess
state plus the lists installed_packages, conda_pkgs and pip_pkgs of lines
137-139. -/
structure Acc where
  st : St
  installed_packages : List Str
  conda_pkgs : List Str
  pip_pkgs : List Str
deriving DecidableEq, Repr

/-- The requirement used by the Conda backend (lines 182-187): a present
conda alias replaces the requirement, an empty alias excludes the directive,
and without an alias a directive lacking a requirement is skipped. -/
def condaRequire (ctx : Ctx) (d : Directive) : Option Req :=
  match d.alias_for_conda with
  | some a => if a.isEmpty then none else some (ctx.parseReq a)
  | none => d.require

/-- The requirement used by the MSYS2 backend (lines 230-235), with the same
alias semantics; a non-empty alias reassigns require, which then also flows
into the pip stage on fall-through. -/
def mingwRequire (ctx : Ctx) (d : Directive) : Option Req :=
  match d.alias_for_mingw with
  | some a => if a.isEmpty then none else some (ctx.parseReq a)
  | none => d.require

/-- Embedding of the conda extra_index_url search loop (lines 189-211): for
each extra url, strip a trailing slash, run conda search against its conda
channel, and on exit code zero let the json scan possibly replace args with
the singleton url of a matching build; the loop always visits every url. -/
def condaSearchLoop (ctx : Ctx) (oracle : Oracle) (reqName : Str) :
    List Str → St → List Str → List Str × St
  | [], st, args => (args, st)
  | extra :: rest, st, args =>
    let packages_url :=
      if extra.getLast? = some '/' then extra.dropLast else extra
    let args2 := [lit "-c", packages_url ++ lit "/conda", reqName, lit "--json"]
    let (res, st2) := runProc oracle st (conda_search ctx ++ args2) none
    let args3 :=
      if res.returncode = 0 then
        match ctx.conda_find_url reqName res.stdout with
        | some url => [url]
        | none => args
      else args
    condaSearchLoop ctx oracle reqName rest st2 args3

/-- Embedding of the Conda backend branch (lines 179-219).  Every path ends
the iteration for this directive (each Python path reaches a continue). -/
def condaBranch (ctx : Ctx) (oracle : Oracle) (extra_index_url : Option (List Str))
    (d : Directive) (acc : Acc) : Acc :=
  match condaRequire ctx d with
  | none => acc
  | some require =>
    let (args, st) :=
      if otruthy extra_index_url then
        condaSearchLoop ctx oracle require.name (oget extra_index_url) acc.st []
      else ([], acc.st)
    if !args.isEmpty then
      let (res, st2) := runProc oracle st (conda_install ctx ++ args) none
      if res.returncode = 0 then
        { acc with st := st2, installed_packages := acc.installed_packages ++ args }
      else { acc with st := st2 }
    else
      { acc with st := st, conda_pkgs := acc.conda_pkgs ++ [require.str] }

/-- Embedding of the pacman candidate loop (lines 252-268): probe each
candidate with pacman -Ss; exit code 1 means the name does not exist and the
next candidate is tried; exit code 0 with "installed" in the output records
the package as already present and stops; otherwise a pacman -S install is
attempted, stopping on success; the loop result is the package recorded as
installed, if any. -/
def mingwLoop (ctx : Ctx) (oracle : Oracle) :
    List Str → St → St × Option Str
  | [], st => (st, none)
  | name :: rest, st =>
    let package := ctx.mingw_package_pfx ++ lit "-" ++ name
    let (res, st2) := runProc oracle st (pacman_search ++ [package]) none
    if res.returncode = 1 then mingwLoop ctx oracle rest st2
    else if res.returncode = 0 && pyInStr (lit "installed") res.stdout then
      (st2, some package)
    else
      let (res2, st3) := runProc oracle st2 (pacman_args ++ [package]) none
      if res2.returncode = 0 then (st3, some package)
      else mingwLoop ctx oracle rest st3

/-- The private environment copy prepared for a pip/uv call (lines 275-276
and 333-334): a copy of os.environ with UV_PYTHON set. -/
def pipBaseEnv (ctx : Ctx) : Env :=
  envSet ctx.os_environ (lit "UV_PYTHON") ctx.sys_executable

/-- The environment of an individual flagged pip/uv install (lines 275-298):
the base copy, with PIP_PRE=1 and UV_PRERELEASE=explicit added when the
directive requested a pre-release. -/
def pipDirectiveEnv (ctx : Ctx) (d : Directive) : Env :=
  if d.pre_release then
    envSet (envSet (pipBaseEnv ctx) (lit "PIP_PRE") (lit "1"))
      (lit "UV_PRERELEASE") (lit "explicit")
  else pipBaseEnv ctx

/-- The environment of the single pre-release retry (lines 316-317): the
directive environment further overridden with PIP_PRE=1 and
UV_PRERELEASE=allow. -/
def pipRetryEnv (ctx : Ctx) (d : Directive) : Env :=
  envSet (envSet (pipDirectiveEnv ctx d) (lit "PIP_PRE") (lit "1"))
    (lit "UV_PRERELEASE") (lit "allow")

/-- The argument fragments accumulated for an individual pip/uv install
(lines 277-302), in source order: --no-deps, --only-binary=name (the
disabled if 0 branch of lines 280-293 is dead code and contributes
nothing), --prefer-binary, --upgrade.  A pre-release request contributes no
argument, only environment variables. -/
def pipFlagArgs (d : Directive) (name : Str) : List Str :=
  (if d.no_deps then [lit "--no-deps"] else [])
    ++ (if d.only_binary then [lit "--only-binary=" ++ name] else [])
    ++ (if d.prefer_binary then [lit "--prefer-binary"] else [])
    ++ (if d.upgrade then [lit "--upgrade"] else [])

/-- The full argument vector of an individual flagged pip/uv install (lines
304-308): the flag arguments, then an --extra-index-url option per extra
url, then a --find-links option per link, appended to the pip install stem
and followed by str(require). -/
def pipIndivArgs (ctx : Ctx) (extra_index_url find_links : Option (List Str))
    (d : Directive) (require : Req) : List Str :=
  pip_install ctx
    ++ (pipFlagArgs d require.name
      ++ (if otruthy extra_index_url then
            (oget extra_index_url).map (fun url => lit "--extra-index-url=" ++ url)
          else [])
      ++ (if otruthy find_links then
            (oget find_links).map (fun link => lit "--find-links=" ++ link)
          else []))
    ++ [require.str]

/-- Embedding of the pip/uv stage of one directive (lines 271-323): without
a requirement the directive is skipped; with flag arguments an individual
install runs under the directive environment, retried exactly once under the
relaxed pre-release environment when it fails, the interpreter is a
pre-release build and the directive did not itself request pre-release;
without flag arguments the requirement is queued on pip_pkgs for the final
batched install. -/
def pipStage (ctx : Ctx) (oracle : Oracle)
    (extra_index_url find_links : Option (List Str))
    (d : Directive) (acc : Acc) : Acc :=
  match d.require with
  | none => acc
  | some require =>
    if !(pipFlagArgs d require.name).isEmpty then
      let full := pipIndivArgs ctx extra_index_url find_links d require
      let (res, st2) := runProc oracle acc.st full (some (pipDirectiveEnv ctx d))
      if res.returncode = 0 then
        { acc with st := st2,
                   installed_packages := acc.installed_packages ++ [require.name] }
      else if !ctx.is_final_version && !d.pre_release then
        let (res2, st3) := runProc oracle st2 full (some (pipRetryEnv ctx d))
        if res2.returncode = 0 then
          { acc with st := st3,
                     installed_packages := acc.installed_packages ++ [require.name] }
        else { acc with st := st3 }
      else { acc with st := st2 }
    else
      { acc with pip_pkgs := acc.pip_pkgs ++ [require.str] }

/-- Embedding of one iteration of the main requirement loop (lines 140-323):
parse the directive, apply the platform and python filters, then run the
Conda branch (which always ends the iteration), or the MSYS2 branch (which
ends the iteration only when a candidate was installed and otherwise falls
through to the pip/uv stage with the possibly realiased requirement), or the
pip/uv stage directly. -/
def processReq (ctx : Ctx) (oracle : Oracle)
    (extra_index_url find_links : Option (List Str))
    (acc : Acc) (req : Str) : Acc :=
  let d := parseDirective ctx req
  if !platformOk ctx d.platform then acc
  else if pySkipPython ctx d.python_version then acc
  else if ctx.is_conda then condaBranch ctx oracle extra_index_url d acc
  else if ctx.is_mingw then
    match mingwRequire ctx d with
    | none => acc
    | some require =>
      let (st2, found) := mingwLoop ctx oracle (msys2Candidates require.name) acc.st
      match found with
      | some package =>
        { acc with st := st2,
                   installed_packages := acc.installed_packages ++ [package] }
      | none =>
        pipStage ctx oracle extra_index_url find_links
          { d with require := some require } { acc with st := st2 }
  else pipStage ctx oracle extra_index_url find_links d acc

/-- Embedding of the set(requires) conversion of lines 114-115:
deduplication of the requirement lines.  CPython iterates a set of strings
in an implementation-defined hash order; the model fixes the order of first
occurrence, the deduplication itself being the semantic content. -/
def pySet (l : List Str) : List Str :=
  l.foldl (fun acc x => if acc.contains x then acc else acc ++ [x]) []

/-- Option list of the final batched pip/uv install (lines 325-330):
an --extra-index-url option per extra url when given, with the --find-links
options prepended before them when given. -/
def pipBatchOpts (extra_index_url find_links : Option (List Str)) : List Str :=
  let args :=
    if otruthy extra_index_url then
      (oget extra_index_url).map (fun extra => lit "--extra-index-url=" ++ extra)
    else []
  if otruthy find_links then
    ((oget find_links).map (fun link => lit "--find-links=" ++ link)) ++ args
  else args

/-- Embedding of the final batched pip/uv install (lines 324-337): when
pip_pkgs is non-empty, run one pip install with the pipBatchOpts option list
over all queued requirements under a fresh base environment copy, and on
success extend installed_packages with the whole batch. -/
def pipBatch (ctx : Ctx) (oracle : Oracle)
    (extra_index_url find_links : Option (List Str)) (acc : Acc) : Acc :=
  if !acc.pip_pkgs.isEmpty then
    let full := pip_install ctx ++ pipBatchOpts extra_index_url find_links ++ acc.pip_pkgs
    let (res, st2) := runProc oracle acc.st full (some (pipBaseEnv ctx))
    if res.returncode = 0 then
      { acc with st := st2,
                 installed_packages := acc.installed_packages ++ acc.pip_pkgs }
    else { acc with st := st2 }
  else acc

/-- Embedding of the final batched conda install (lines 338-344): when
conda_pkgs is non-empty, run one conda install against the conda-forge
channel and on success extend installed_packages with the whole batch. -/
def condaBatch (ctx : Ctx) (oracle : Oracle) (acc : Acc) : Acc :=
  if !acc.conda_pkgs.isEmpty then
    let full := conda_install ctx
      ++ [lit "--override-channels", lit "-c", lit "conda-forge"] ++ acc.conda_pkgs
    let (res, st2) := runProc oracle acc.st full none
    if res.returncode = 0 then
      { acc with st := st2,
                 installed_packages := acc.installed_packages ++ acc.conda_pkgs }
    else { acc with st := st2 }
  else acc

/-- Embedding of install_requirements (ci/build_test.py lines 107-346) on a
list of requirement lines (a string argument is first split on commas, a
set argument is already deduplicated): deduplicate, process every directive
in sequence, then run the batched pip and conda installs. -/
def install_requirements (ctx : Ctx) (oracle : Oracle) (requires : List Str)
    (extra_index_url find_links : Option (List Str)) : Acc :=
  let acc0 : Acc :=
    { st := { trace := [], k := 0 }, installed_packages := [],
      conda_pkgs := [], pip_pkgs := [] }
  let acc := (pySet requires).foldl
    (processReq ctx oracle extra_index_url find_links) acc0
  condaBatch ctx oracle (pipBatch ctx oracle extra_index_url find_links acc)

/-!  Concrete instances used to exercise the model.  -/

/-- Initial accumulator of an install_requirements call. -/
def acc0 : Acc :=
  { st := { trace := [], k := 0 }, installed_packages := [],
    conda_pkgs := [], pip_pkgs := [] }

/-- A plain pip/uv context on linux: no conda, no mingw, final interpreter,
PIP_UPGRADE unset, uv absent so pip_command is python -m pip shortened to
one word, one unrelated variable in the environment, packaging absent so
requirement parsing is the fallback class. -/
def ctxPip : Ctx :=
  { is_conda := false, is_mingw := false, is_final_version := true,
    pip_upgrade := false, conda_exe := lit "conda", sys_pfx := lit "p",
    sys_executable := lit "python", mingw_package_pfx := lit "m",
    pip_command := [lit "pip"], platform_in_use := lit "linux",
    os_environ := [(lit "HOME", lit "h")],
    parseReq := plainReq, python_supported := fun _ => true,
    conda_find_url := fun _ _ => none }

/-- The pip context with the conda marker present. -/
def ctxConda : Ctx := { ctxPip with is_conda := true }

/-- The pip context on an MSYS2/MinGW platform. -/
def ctxMingw : Ctx := { ctxPip with is_mingw := true }

/-- The pip context under a pre-release interpreter build. -/
def ctxPre : Ctx := { ctxPip with is_final_version := false }

/-- The pip context with PIP_UPGRADE set to a truthy value. -/
def ctxUp : Ctx := { ctxPip with pip_upgrade := true }

/-- An external world in which every command succeeds. -/
def oracleOk : Oracle := fun _ => { returncode := 0, stdout := [] }

/-- An external world in which every command exits with code 1. -/
def oracleFail : Oracle := fun _ => { returncode := 1, stdout := [] }

/-- An external world whose first two commands exit with code 1 (pacman:
name does not exist) and whose later commands succeed. -/
def oracleMiss2 : Oracle := fun k =>
  if k < 2 then { returncode := 1, stdout := [] }
  else { returncode := 0, stdout := [] }

/-- The directive parsed from the line foo --no-deps under the pre-release
interpreter context. -/
def dNoDeps : Directive := parseDirective ctxPre (lit "foo --no-deps")

/-- Environment keys a pip/uv subprocess env copy may override relative to
os.environ: the interpreter selection and the two pre-release toggles. -/
def envOkayKeys : List Str :=
  [lit "UV_PYTHON", lit "PIP_PRE", lit "UV_PRERELEASE"]

/-- An invocation respects the environment-copy discipline when the env it
received, if any, agrees with os.environ outside envOkayKeys. -/
def envOkay (ctx : Ctx) (inv : Invocation) : Prop :=
  ∀ e, inv.env = some e → ∀ k, k ∉ envOkayKeys →
    envGet e k = envGet ctx.os_environ k

/-- All invocations recorded so far respect the environment-copy
discipline. -/
def traceOkay (ctx : Ctx) (st : St) : Prop :=
  ∀ inv ∈ st.trace, envOkay ctx inv

/-- An accumulator with one flagless requirement queued for the batch. -/
def accQueued : Acc := { acc0 with pip_pkgs := [lit "foo"] }

/-- Subprocess state after the two failing pacman probes for the line foo on
the mingw context. -/
def stProbes : St :=
  { trace := [{ args := pacman_search ++ [lit "m-python-foo"], env := none },
              { args := pacman_search ++ [lit "m-foo"], env := none }], k := 2 }

/-- The individual upgrade invocation produced for the line foo under the
PIP_UPGRADE context. -/
def invUp : Invocation :=
  { args := [lit "pip", lit "install", lit "--upgrade", lit "foo"],
    env := some [(lit "HOME", lit "h"), (lit "UV_PYTHON", lit "python")] }

/-- The batched invocation produced for the line foo on the plain pip
context. -/
def invFoo : Invocation :=
  { args := [lit "pip", lit "install", lit "foo"],
    env := some [(lit "HOME", lit "h"), (lit "UV_PYTHON", lit "python")] }

/-- The environment received by that batched invocation. -/
def envFoo : Env := [(lit "HOME", lit "h"), (lit "UV_PYTHON", lit "python")]

end BuildTest

namespace WinVersion

open BuildTest

/-- Fuel-bounded embedding of the while loop of VersionInfo.__init__
(cx_Freeze/winversioninfo.py lines 32-34): while len(parts) < 4, append "0".
Each iteration grows the list by one element, so from any split result
(whose length is at least 1) at most four iterations per missing part are
needed; fuel 4 is enough for every input, and the function below agrees
with the unbounded loop on all inputs. -/
def padPartsGo : Nat → List Str → List Str
  | 0, parts => parts
  | n + 1, parts =>
    if parts.length < 4 then padPartsGo n (parts ++ [lit "0"]) else parts

/-- The normalized parts list of VersionInfo.__init__. -/
def padParts (parts : List Str) : List Str := padPartsGo 4 parts

/-- Embedding of the version attribute stored by VersionInfo.__init__
(cx_Freeze/winversioninfo.py lines 32-35): split the version string on dots,
pad with "0" parts to at least four, and join with dots again
(".".join(parts), modelled by List.intercalate with separator "."). -/
def versionInfo_version (version : Str) : Str :=
  (lit ".").intercalate (padParts (pySplit '.' version))

end WinVersion

open BuildTest WinVersion

/-!  Claim C3: the empty platform-constraint string.  -/

/-- Claim C3 as stated is false: is_supported_platform called with the
empty constraint string does not return true for the platform linux.  The
code splits the string before testing falsiness, the empty string splits
into one empty tag, the resulting inclusion set is the singleton of the
empty tag, and linux is not a member. -/
theorem c3_counterexample :
    is_supported_platform (PlatArg.strArg (lit "")) (lit "linux") = false := by
  decide

/-- Claim C3 amended: an absent constraint (None) or an empty constraint
list is universally supported, while the empty constraint string yields the
singleton support set of the empty tag, so it accepts exactly the empty
platform-in-use string and rejects every real platform. -/
theorem c3_empty_constraint (p : Str) :
    is_supported_platform PlatArg.noneArg p = true ∧
    is_supported_platform (PlatArg.listArg []) p = true ∧
    is_supported_platform (PlatArg.strArg (lit "")) p = (p == ([] : Str)) := by
  refine ⟨rfl, rfl, ?_⟩
  show List.elem p [([] : Str)] = (p == ([] : Str))
  cases h : p == ([] : Str) <;> simp [List.elem, h]

/-!  Claim C8: MSYS2 candidate-name generation.  -/

/-- Claim C8: MSYS2 candidate generation for My_Package produces exactly the
eight-element list below, in this fixed order (the generator is a pure
function of the name, so the list and its order are the same on every run),
and in particular the list contains python-My_Package, My_Package, their
lower-cased forms, and the hyphenated forms of all of those. -/
theorem c8_msys2_candidates :
    msys2Candidates (lit "My_Package") =
      [lit "python-My_Package", lit "My_Package", lit "python-my_package",
       lit "my_package", lit "python-My-Package", lit "My-Package",
       lit "python-my-package", lit "my-package"] ∧
    lit "python-My_Package" ∈ msys2Candidates (lit "My_Package") ∧
    lit "My_Package" ∈ msys2Candidates (lit "My_Package") ∧
    lit "python-my_package" ∈ msys2Candidates (lit "My_Package") ∧
    lit "my_package" ∈ msys2Candidates (lit "My_Package") ∧
    lit "python-My-Package" ∈ msys2Candidates (lit "My_Package") ∧
    lit "My-Package" ∈ msys2Candidates (lit "My_Package") ∧
    lit "python-my-package" ∈ msys2Candidates (lit "My_Package") ∧
    lit "my-package" ∈ msys2Candidates (lit "My_Package") := by
  decide

/-!  Claim C10: version normalization of VersionInfo.  -/

/-- Auxiliary: with enough fuel the padding loop appends exactly the missing
number of zero parts. -/
theorem padPartsGo_fuel (fuel : Nat) :
    ∀ (parts : List Str) (k : Nat), parts.length + k = 4 → k ≤ fuel →
      padPartsGo fuel parts = parts ++ List.replicate k (lit "0") := by
  induction fuel with
  | zero =>
    intro parts k h hk
    interval_cases k
    simp [padPartsGo]
  | succ n ih =>
    intro parts k h hk
    by_cases hlt : parts.length < 4
    · cases k with
      | zero => omega
      | succ k0 =>
        rw [padPartsGo, if_pos hlt,
          ih (parts ++ [lit "0"]) k0 (by simp; omega) (by omega)]
        simp [List.replicate_succ]
    · have hk0 : k = 0 := by omega
      subst hk0
      rw [padPartsGo, if_neg hlt]
      simp

/-- Auxiliary: a parts list that is already long enough is left unchanged by
the padding loop. -/
theorem padPartsGo_ge (k : Nat) (parts : List Str) (h : 4 ≤ parts.length) :
    padPartsGo k parts = parts := by
  cases k with
  | zero => rfl
  | succ n => rw [padPartsGo, if_neg (by omega)]

/-- Auxiliary: no element of a part produced by splitOnP satisfies the
splitting predicate. -/
theorem not_mem_splitOnP (p : Char → Bool) :
    ∀ xs : Str, ∀ l ∈ xs.splitOnP p, ∀ a ∈ l, p a = false := by
  intro xs
  induction xs with
  | nil =>
    intro l hl a ha
    rw [List.splitOnP_nil] at hl
    simp at hl
    subst hl
    simp at ha
  | cons hd tl ih =>
    intro l hl a ha
    rw [List.splitOnP_cons] at hl
    by_cases h : p hd
    · rw [if_pos h] at hl
      rcases List.mem_cons.mp hl with h1 | h1
      · subst h1; simp at ha
      · exact ih l h1 a ha
    · rw [if_neg h] at hl
      cases hsp : tl.splitOnP p with
      | nil => exact absurd hsp (List.splitOnP_ne_nil p tl)
      | cons h0 t0 =>
        rw [hsp] at hl
        simp only [List.modifyHead] at hl
        rcases List.mem_cons.mp hl with h1 | h1
        · subst h1
          rcases List.mem_cons.mp ha with h2 | h2
          · subst h2; simpa using h
          · exact ih h0 (by rw [hsp]; exact List.mem_cons_self _ _) a h2
        · exact ih l (by rw [hsp]; exact List.mem_cons_of_mem _ h1) a ha

/-- Auxiliary: the separator never occurs inside a part of splitOn. -/
theorem not_mem_splitOn_char (x : Char) (xs : Str) :
    ∀ l ∈ xs.splitOn x, x ∉ l := by
  intro l hl hx
  have := not_mem_splitOnP (fun a => a == x) xs l
    (by simpa [List.splitOn] using hl) x hx
  simp at this

/-- Claim C10: the version stored by VersionInfo.__init__ is the input
version normalized to at least four dot-separated parts.  When the input
has at most four parts, the stored version has exactly four parts, the
original parts followed by "0" parts in order; when the input has more than
four parts, it is stored unchanged. -/
theorem c10_version_pad (v : Str) :
    ((pySplit '.' v).length ≤ 4 →
      pySplit '.' (versionInfo_version v) =
        pySplit '.' v ++ List.replicate (4 - (pySplit '.' v).length) (lit "0") ∧
      (pySplit '.' (versionInfo_version v)).length = 4) ∧
    (4 < (pySplit '.' v).length → versionInfo_version v = v) := by
  have hdot : lit "." = [('.' : Char)] := rfl
  have hne : v.splitOn '.' ≠ [] := by
    simpa [List.splitOn] using List.splitOnP_ne_nil (fun a => a == '.') v
  constructor
  · intro h
    have hpad : padParts (v.splitOn '.') =
        v.splitOn '.' ++ List.replicate (4 - (v.splitOn '.').length) (lit "0") := by
      have h4 : (v.splitOn '.').length ≤ 4 := h
      exact padPartsGo_fuel 4 (v.splitOn '.') (4 - (v.splitOn '.').length)
        (by omega) (by omega)
    have hx : ∀ l ∈ padParts (v.splitOn '.'), ('.' : Char) ∉ l := by
      intro l hl
      rw [hpad] at hl
      rcases List.mem_append.mp hl with h1 | h1
      · exact not_mem_splitOn_char '.' v l h1
      · have := List.eq_of_mem_replicate h1
        subst this
        decide
    have hls : padParts (v.splitOn '.') ≠ [] := by
      rw [hpad]
      intro hcon
      exact hne (List.append_eq_nil.mp hcon).1
    have hsplit : pySplit '.' (versionInfo_version v) = padParts (v.splitOn '.') := by
      show (versionInfo_version v).splitOn '.' = padParts (v.splitOn '.')
      rw [versionInfo_version, hdot]
      exact List.splitOn_intercalate _ '.' hx hls
    constructor
    · rw [hsplit, hpad]
      rfl
    · rw [hsplit, hpad]
      simp only [List.length_append, List.length_replicate]
      have : (v.splitOn '.').length ≤ 4 := h
      omega
  · intro h
    have hge : padParts (v.splitOn '.') = v.splitOn '.' :=
      padPartsGo_ge 4 (v.splitOn '.') (by simpa [pySplit] using Nat.le_of_lt h)
    rw [versionInfo_version, hdot]
    show [('.' : Char)].intercalate (padParts (pySplit '.' v)) = v
    rw [show pySplit '.' v = v.splitOn '.' from rfl, hge]
    exact List.intercalate_splitOn _ '.'

/-- Witness for claim C10: the two-part version 1.2 is padded to four parts
1.2.0.0 and the five-part version 1.2.3.4.5 is stored unchanged. -/
theorem c10_witness :
    (pySplit '.' (lit "1.2")).length ≤ 4 ∧
    pySplit '.' (versionInfo_version (lit "1.2")) =
      pySplit '.' (lit "1.2")
        ++ List.replicate (4 - (pySplit '.' (lit "1.2")).length) (lit "0") ∧
    4 < (pySplit '.' (lit "1.2.3.4.5")).length ∧
    versionInfo_version (lit "1.2.3.4.5") = lit "1.2.3.4.5" :=
  ⟨by decide, ((c10_version_pad (lit "1.2")).1 (by decide)).1,
   by decide, (c10_version_pad (lit "1.2.3.4.5")).2 (by decide)⟩

/-!  Claim C6: empty conda alias excludes the directive.  -/

/-- Claim C6: on the Conda backend a directive whose conda alias is the
empty string never produces an installation attempt: processing it leaves
the accumulator, and in particular the subprocess trace and the
installed-packages outcome list, completely unchanged. -/
theorem c6_conda_empty_alias (ctx : Ctx) (oracle : Oracle)
    (extra_index_url find_links : Option (List Str)) (acc : Acc) (req : Str)
    (hconda : ctx.is_conda = true)
    (halias : (parseDirective ctx req).alias_for_conda = some []) :
    processReq ctx oracle extra_index_url find_links acc req = acc := by
  have hreq : condaRequire ctx (parseDirective ctx req) = none := by
    unfold condaRequire
    rw [halias]
    rfl
  unfold processReq
  by_cases h1 : platformOk ctx (parseDirective ctx req).platform
  · by_cases h2 : pySkipPython ctx (parseDirective ctx req).python_version
    · simp [h1, h2]
    · simp [h1, h2, hconda, condaBranch, hreq]
  · simp [h1]

/-- Witness for claim C6: the line foo --conda= parses to an empty conda
alias and is a complete no-op on the conda context. -/
theorem c6_witness :
    ctxConda.is_conda = true ∧
    (parseDirective ctxConda (lit "foo --conda=")).alias_for_conda = some [] ∧
    processReq ctxConda oracleOk none none acc0 (lit "foo --conda=") = acc0 :=
  ⟨rfl, by decide,
   c6_conda_empty_alias ctxConda oracleOk none none acc0 (lit "foo --conda=")
     rfl (by decide)⟩

/-!  Claim C5: the single pre-release retry of a flagged pip install.  -/

/-- Claim C5: when a flagged pip/uv install exits non-zero, then if the
directive did not request --pre and the interpreter is a pre-release build,
exactly one retry happens, with the same argument vector and the
pre-release acceptance relaxed to allow, and nothing follows it; if the
directive requested --pre or the interpreter is a final release, no retry
happens at all. -/
theorem c5_pip_retry (ctx : Ctx) (oracle : Oracle)
    (extra_index_url find_links : Option (List Str)) (d : Directive) (acc : Acc)
    (require : Req)
    (hreq : d.require = some require)
    (hflag : (pipFlagArgs d require.name).isEmpty = false)
    (hfail : (oracle acc.st.k).returncode ≠ 0) :
    (d.pre_release = false → ctx.is_final_version = false →
      (pipStage ctx oracle extra_index_url find_links d acc).st.trace =
        acc.st.trace ++
          [{ args := pipIndivArgs ctx extra_index_url find_links d require,
             env := some (pipDirectiveEnv ctx d) },
           { args := pipIndivArgs ctx extra_index_url find_links d require,
             env := some (pipRetryEnv ctx d) }]) ∧
    ((d.pre_release = true ∨ ctx.is_final_version = true) →
      (pipStage ctx oracle extra_index_url find_links d acc).st.trace =
        acc.st.trace ++
          [{ args := pipIndivArgs ctx extra_index_url find_links d require,
             env := some (pipDirectiveEnv ctx d) }]) := by
  unfold pipStage
  rw [hreq]
  simp only [hflag, Bool.not_false, if_true, runProc]
  constructor
  · intro hpre hfin
    simp only [hfail, if_neg hfail, hpre, hfin, Bool.not_false, Bool.and_self, if_true]
    by_cases h2 : (oracle (acc.st.k + 1)).returncode = 0 <;>
      simp [h2, runProc, List.append_assoc]
  · intro hor
    have hco : (!ctx.is_final_version && !d.pre_release) = false := by
      rcases hor with h | h <;> simp [h]
    simp [hfail, hco, runProc]

/-- Witness for claim C5: under a pre-release interpreter, the flagged line
foo --no-deps failing against a world where every command fails is run
exactly twice, the second time under the allow pre-release environment. -/
theorem c5_witness :
    dNoDeps.require = some (plainReq (lit "foo")) ∧
    (pipFlagArgs dNoDeps (plainReq (lit "foo")).name).isEmpty = false ∧
    (oracleFail acc0.st.k).returncode ≠ 0 ∧
    dNoDeps.pre_release = false ∧
    ctxPre.is_final_version = false ∧
    (pipStage ctxPre oracleFail none none dNoDeps acc0).st.trace =
      acc0.st.trace ++
        [{ args := pipIndivArgs ctxPre none none dNoDeps (plainReq (lit "foo")),
           env := some (pipDirectiveEnv ctxPre dNoDeps) },
         { args := pipIndivArgs ctxPre none none dNoDeps (plainReq (lit "foo")),
           env := some (pipRetryEnv ctxPre dNoDeps) }] :=
  ⟨by decide, by decide, by decide, by decide, rfl,
   (c5_pip_retry ctxPre oracleFail none none dNoDeps acc0 (plainReq (lit "foo"))
     (by decide) (by decide) (by decide)).1 (by decide) rfl⟩

/-!  Claim C1: individual versus batched pip/uv installs.  -/

/-- Claim C1 as stated is false: the line foo --pre carries the pre_release
flag, yet the whole call performs exactly one subprocess invocation, the
batched one, whose argument vector contains no argument constructed from
any flag and whose environment does not carry the pre-release variables;
the directive was accumulated on the batch instead of being installed by
its own individual invocation. -/
theorem c1_counterexample :
    (parseDirective ctxPip (lit "foo --pre")).pre_release = true ∧
    (install_requirements ctxPip oracleOk [lit "foo --pre"] none none).st.trace =
      [{ args := [lit "pip", lit "install", lit "foo"],
         env := some [(lit "HOME", lit "h"), (lit "UV_PYTHON", lit "python")] }] ∧
    (install_requirements ctxPip oracleOk [lit "foo --pre"] none none).installed_packages
      = [lit "foo"] := by
  decide

/-- Auxiliary: the flag argument list is empty exactly when none of the four
argument-producing flags is set (pre_release contributes no argument). -/
theorem pipFlagArgs_isEmpty_iff (d : Directive) (name : Str) :
    (pipFlagArgs d name).isEmpty
      = (!d.no_deps && !d.only_binary && !d.prefer_binary && !d.upgrade) := by
  unfold pipFlagArgs
  cases hnd : d.no_deps <;> cases hob : d.only_binary <;>
    cases hpb : d.prefer_binary <;> cases hup : d.upgrade <;> simp

/-- Auxiliary: taking one element past a list prefix of an append isolates
the first appended element. -/
theorem take_append_cons (l : List Invocation) (a : Invocation) (rest : List Invocation) :
    (l ++ a :: rest).take (l.length + 1) = l ++ [a] := by
  rw [List.take_append_eq_append_take]
  congr 1
  · exact List.take_of_length_le (by omega)
  · have h1 : l.length + 1 - l.length = 1 := by omega
    rw [h1]
    rfl

/-- Claim C1 amended: on the pip/uv backend a directive is installed by its
own individual invocation exactly when it carries at least one of the four
argument-producing flags no_deps, only_binary, prefer_binary, upgrade: then
the pip_pkgs queue is untouched, the first new invocation is the individual
one with the constructed arguments, and at most one further invocation (the
pre-release retry) follows.  A directive carrying none of those four flags
(even if it carries pre_release) performs no invocation and is queued, and
a non-empty queue is flushed by exactly one batched invocation listing all
queued requirements. -/
theorem c1_amended (ctx : Ctx) (oracle : Oracle)
    (extra_index_url find_links : Option (List Str)) (acc : Acc) (req : Str)
    (require : Req)
    (hc : ctx.is_conda = false) (hm : ctx.is_mingw = false)
    (hp : platformOk ctx (parseDirective ctx req).platform = true)
    (hpy : pySkipPython ctx (parseDirective ctx req).python_version = false)
    (hreq : (parseDirective ctx req).require = some require) :
    (((parseDirective ctx req).no_deps || (parseDirective ctx req).only_binary
        || (parseDirective ctx req).prefer_binary
        || (parseDirective ctx req).upgrade) = true →
      (processReq ctx oracle extra_index_url find_links acc req).pip_pkgs
          = acc.pip_pkgs ∧
      (processReq ctx oracle extra_index_url find_links acc req).st.trace.take
          (acc.st.trace.length + 1) =
        acc.st.trace ++
          [{ args := pipIndivArgs ctx extra_index_url find_links
               (parseDirective ctx req) require,
             env := some (pipDirectiveEnv ctx (parseDirective ctx req)) }] ∧
      (processReq ctx oracle extra_index_url find_links acc req).st.trace.length
          ≤ acc.st.trace.length + 2) ∧
    (((parseDirective ctx req).no_deps || (parseDirective ctx req).only_binary
        || (parseDirective ctx req).prefer_binary
        || (parseDirective ctx req).upgrade) = false →
      (processReq ctx oracle extra_index_url find_links acc req).pip_pkgs
          = acc.pip_pkgs ++ [require.str] ∧
      (processReq ctx oracle extra_index_url find_links acc req).st.trace
          = acc.st.trace) ∧
    (acc.pip_pkgs.isEmpty = false →
      (pipBatch ctx oracle extra_index_url find_links acc).st.trace =
        acc.st.trace ++
          [{ args := pip_install ctx ++ pipBatchOpts extra_index_url find_links
               ++ acc.pip_pkgs,
             env := some (pipBaseEnv ctx) }]) := by
  have hstage : processReq ctx oracle extra_index_url find_links acc req
      = pipStage ctx oracle extra_index_url find_links (parseDirective ctx req) acc := by
    unfold processReq
    simp [hp, hpy, hc, hm]
  refine ⟨?_, ?_, ?_⟩
  · intro hflags
    have hfe : (pipFlagArgs (parseDirective ctx req) require.name).isEmpty = false := by
      rw [pipFlagArgs_isEmpty_iff]
      revert hflags
      cases (parseDirective ctx req).no_deps <;>
        cases (parseDirective ctx req).only_binary <;>
        cases (parseDirective ctx req).prefer_binary <;>
        cases (parseDirective ctx req).upgrade <;> simp
    rw [hstage]
    unfold pipStage
    rw [hreq]
    simp only [hfe, Bool.not_false, if_true, runProc]
    by_cases h1 : (oracle acc.st.k).returncode = 0
    · simp only [h1, if_true]
      refine ⟨trivial, by simp, by simp⟩
    · simp only [h1, if_false]
      by_cases h2 : (!ctx.is_final_version && !(parseDirective ctx req).pre_release) = true
      · simp only [h2, if_true, runProc]
        by_cases h3 : (oracle (acc.st.k + 1)).returncode = 0 <;>
          · simp only [h3, if_true, if_false, List.append_assoc]
            refine ⟨trivial, ?_, by simp⟩
            exact take_append_cons acc.st.trace _ _
      · rw [if_neg (by simpa using h2)]
        refine ⟨rfl, by simp, by simp⟩
  · intro hflags
    have hfe : (pipFlagArgs (parseDirective ctx req) require.name).isEmpty = true := by
      rw [pipFlagArgs_isEmpty_iff]
      revert hflags
      cases (parseDirective ctx req).no_deps <;>
        cases (parseDirective ctx req).only_binary <;>
        cases (parseDirective ctx req).prefer_binary <;>
        cases (parseDirective ctx req).upgrade <;> simp
    rw [hstage]
    unfold pipStage
    rw [hreq]
    simp [hfe]
  · intro hne
    unfold pipBatch
    simp only [hne, Bool.not_false, if_true, runProc]
    by_cases h1 : (oracle acc.st.k).returncode = 0 <;> simp [h1]

/-- Witness for claim C1 amended: the flagged line bar --only-binary makes
an individual invocation with constructed arguments and leaves the queue
untouched, the flagless line foo performs no invocation and is queued, and
a queued accumulator is flushed by one batched invocation. -/
theorem c1_witness :
    ((parseDirective ctxPip (lit "bar --only-binary")).no_deps
        || (parseDirective ctxPip (lit "bar --only-binary")).only_binary
        || (parseDirective ctxPip (lit "bar --only-binary")).prefer_binary
        || (parseDirective ctxPip (lit "bar --only-binary")).upgrade) = true ∧
    (processReq ctxPip oracleOk none none acc0 (lit "bar --only-binary")).pip_pkgs
        = acc0.pip_pkgs ∧
    (processReq ctxPip oracleOk none none acc0 (lit "bar --only-binary")).st.trace.take
        (acc0.st.trace.length + 1) =
      acc0.st.trace ++
        [{ args := pipIndivArgs ctxPip none none
             (parseDirective ctxPip (lit "bar --only-binary")) (plainReq (lit "bar")),
           env := some (pipDirectiveEnv ctxPip
             (parseDirective ctxPip (lit "bar --only-binary"))) }] ∧
    (processReq ctxPip oracleOk none none acc0 (lit "foo")).pip_pkgs
        = acc0.pip_pkgs ++ [(plainReq (lit "foo")).str] ∧
    accQueued.pip_pkgs.isEmpty = false ∧
    (pipBatch ctxPip oracleOk none none accQueued).st.trace =
      accQueued.st.trace ++
        [{ args := pip_install ctxPip ++ pipBatchOpts none none
             ++ accQueued.pip_pkgs,
           env := some (pipBaseEnv ctxPip) }] :=
  ⟨by decide,
   ((c1_amended ctxPip oracleOk none none acc0 (lit "bar --only-binary")
       (plainReq (lit "bar")) rfl rfl (by decide) (by decide) (by decide)).1
     (by decide)).1,
   ((c1_amended ctxPip oracleOk none none acc0 (lit "bar --only-binary")
       (plainReq (lit "bar")) rfl rfl (by decide) (by decide) (by decide)).1
     (by decide)).2.1,
   ((c1_amended ctxPip oracleOk none none acc0 (lit "foo")
       (plainReq (lit "foo")) rfl rfl (by decide) (by decide) (by decide)).2.1
     (by decide)).1,
   by decide,
   (c1_amended ctxPip oracleOk none none accQueued (lit "foo")
       (plainReq (lit "foo")) rfl rfl (by decide) (by decide) (by decide)).2.2
     (by decide)⟩

/-!  Claim C2: MSYS2 directives whose candidates all fail.  -/

/-- Claim C2 as stated is false: on the MSYS2 backend the line foo, whose
two pacman probes both report that the name does not exist, is not dropped;
the call falls through to the pip/uv stage, makes a pip invocation for it,
and installs it from there. -/
theorem c2_counterexample :
    (install_requirements ctxMingw oracleMiss2 [lit "foo"] none none).st.trace =
      [{ args := pacman_search ++ [lit "m-python-foo"], env := none },
       { args := pacman_search ++ [lit "m-foo"], env := none },
       { args := [lit "pip", lit "install", lit "foo"],
         env := some [(lit "HOME", lit "h"), (lit "UV_PYTHON", lit "python")] }] ∧
    (install_requirements ctxMingw oracleMiss2 [lit "foo"] none none).installed_packages
      = [lit "foo"] := by
  decide

/-- Claim C2 amended: on the MSYS2 backend a directive whose whole candidate
list yields no successful install is not dropped; processing continues
exactly as the pip/uv stage on the state left by the candidate loop, with
the (possibly realiased) requirement, so the directive is retried on the
pip/uv pathway within the same call. -/
theorem c2_amended (ctx : Ctx) (oracle : Oracle)
    (extra_index_url find_links : Option (List Str)) (acc : Acc) (req : Str)
    (require : Req) (st2 : St)
    (hc : ctx.is_conda = false) (hm : ctx.is_mingw = true)
    (hp : platformOk ctx (parseDirective ctx req).platform = true)
    (hpy : pySkipPython ctx (parseDirective ctx req).python_version = false)
    (hreq : mingwRequire ctx (parseDirective ctx req) = some require)
    (hloop : mingwLoop ctx oracle (msys2Candidates require.name) acc.st = (st2, none)) :
    processReq ctx oracle extra_index_url find_links acc req =
      pipStage ctx oracle extra_index_url find_links
        { parseDirective ctx req with require := some require }
        { acc with st := st2 } := by
  unfold processReq
  simp [hp, hpy, hc, hm, hreq, hloop]

/-- Witness for claim C2 amended: on the mingw context with every command
failing, the line foo runs through both pacman probes without success and
is then handed to the pip/uv stage. -/
theorem c2_witness :
    ctxMingw.is_mingw = true ∧
    mingwRequire ctxMingw (parseDirective ctxMingw (lit "foo")) = some (plainReq (lit "foo")) ∧
    mingwLoop ctxMingw oracleFail (msys2Candidates (plainReq (lit "foo")).name) acc0.st
      = (stProbes, none) ∧
    processReq ctxMingw oracleFail none none acc0 (lit "foo") =
      pipStage ctxMingw oracleFail none none
        { parseDirective ctxMingw (lit "foo") with require := some (plainReq (lit "foo")) }
        { acc0 with st := stProbes } :=
  ⟨rfl, by decide, by decide,
   c2_amended ctxMingw oracleFail none none acc0 (lit "foo") (plainReq (lit "foo"))
     stProbes rfl rfl (by decide) (by decide) (by decide) (by decide)⟩

/-!  Claim C4: processing order, duplicates and the outcome list.  -/

/-- Claim C4 as stated is false: with the duplicated input line foo given
twice, only one attempt is made (a single subprocess call) and the outcome
list contains foo once, not once per duplicate, because the requirement
lines are converted to a set before processing. -/
theorem c4_counterexample :
    (install_requirements ctxPip oracleOk [lit "foo", lit "foo"] none none).installed_packages
      = [lit "foo"] ∧
    (install_requirements ctxPip oracleOk [lit "foo", lit "foo"] none none).st.trace.length
      = 1 ∧
    pySet [lit "foo", lit "foo"] = [lit "foo"] := by
  decide

/-- Auxiliary: a membership yields a true contains test. -/
theorem contains_eq_true_of_mem (acc : List Str) (y : Str) (h : y ∈ acc) :
    acc.contains y = true := List.elem_iff.mpr h

/-- Auxiliary: a non-membership yields a false contains test. -/
theorem contains_eq_false_of_not_mem (acc : List Str) (y : Str) (h : y ∉ acc) :
    acc.contains y = false := by
  rw [Bool.eq_false_iff]
  intro hcon
  exact h (List.elem_iff.mp hcon)

/-- Auxiliary: the set-conversion fold never creates duplicates. -/
theorem pySet_go_nodup (l : List Str) :
    ∀ acc : List Str, acc.Nodup →
      (l.foldl (fun a x => if a.contains x then a else a ++ [x]) acc).Nodup := by
  induction l with
  | nil => intro acc h; simpa using h
  | cons y ys ih =>
    intro acc h
    simp only [List.foldl_cons]
    apply ih
    by_cases hy : y ∈ acc
    · simp only [contains_eq_true_of_mem acc y hy, if_true]
      exact h
    · simp only [contains_eq_false_of_not_mem acc y hy, Bool.false_eq_true, if_false]
      rw [List.nodup_append]
      refine ⟨h, List.nodup_singleton y, ?_⟩
      intro a ha hay
      rcases List.mem_singleton.mp hay with rfl
      exact hy ha

/-- Auxiliary: membership in the set-conversion fold. -/
theorem pySet_go_mem (l : List Str) :
    ∀ (acc : List Str) (x : Str),
      x ∈ l.foldl (fun a x => if a.contains x then a else a ++ [x]) acc
        ↔ x ∈ acc ∨ x ∈ l := by
  induction l with
  | nil => intro acc x; simp
  | cons y ys ih =>
    intro acc x
    simp only [List.foldl_cons]
    rw [ih]
    by_cases hy : y ∈ acc
    · simp only [contains_eq_true_of_mem acc y hy, if_true, List.mem_cons]
      constructor
      · rintro (h | h)
        · exact Or.inl h
        · exact Or.inr (Or.inr h)
      · rintro (h | rfl | h)
        · exact Or.inl h
        · exact Or.inl hy
        · exact Or.inr h
    · simp only [contains_eq_false_of_not_mem acc y hy, Bool.false_eq_true, if_false,
        List.mem_append, List.mem_singleton, List.mem_cons]
      tauto

/-- Auxiliary: the set conversion produces a duplicate-free list. -/
theorem pySet_nodup (l : List Str) : (pySet l).Nodup :=
  pySet_go_nodup l [] List.nodup_nil

/-- Auxiliary: the set conversion preserves membership. -/
theorem pySet_mem (l : List Str) (x : Str) : x ∈ pySet l ↔ x ∈ l := by
  unfold pySet
  rw [pySet_go_mem]
  simp

/-- Auxiliary: on a duplicate-free list disjoint from the accumulator the
set-conversion fold appends the list unchanged. -/
theorem pySet_go_of_disjoint (l : List Str) :
    ∀ acc : List Str, l.Nodup → (∀ x ∈ l, x ∉ acc) →
      l.foldl (fun a x => if a.contains x then a else a ++ [x]) acc = acc ++ l := by
  induction l with
  | nil => intro acc _ _; simp
  | cons y ys ih =>
    intro acc hnd hdisj
    simp only [List.foldl_cons]
    have hy : y ∉ acc := hdisj y (List.mem_cons_self y ys)
    simp only [contains_eq_false_of_not_mem acc y hy, Bool.false_eq_true, if_false]
    rw [ih (acc ++ [y]) (List.Nodup.of_cons hnd)]
    · simp
    · intro x hx
      simp only [List.mem_append, List.mem_singleton]
      rintro (h | rfl)
      · exact hdisj x (List.mem_cons_of_mem y hx) h
      · exact (List.nodup_cons.mp hnd).1 hx

/-- Auxiliary: the set conversion is the identity on duplicate-free
lists. -/
theorem pySet_of_nodup (l : List Str) (h : l.Nodup) : pySet l = l := by
  unfold pySet
  simpa using pySet_go_of_disjoint l [] h (by simp)

/-- Auxiliary: the Conda branch only appends to the outcome list. -/
theorem condaBranch_installed_pfx (ctx : Ctx) (oracle : Oracle)
    (extra : Option (List Str)) (d : Directive) (acc : Acc) :
    acc.installed_packages <+: (condaBranch ctx oracle extra d acc).installed_packages := by
  unfold condaBranch
  cases hcr : condaRequire ctx d with
  | none => exact List.prefix_rfl
  | some require =>
    dsimp only
    generalize (if otruthy extra = true then
        condaSearchLoop ctx oracle require.name (oget extra) acc.st []
      else ([], acc.st)) = pr
    obtain ⟨args, st⟩ := pr
    simp only [runProc]
    by_cases hargs : args.isEmpty
    · simp only [hargs, Bool.not_true, Bool.false_eq_true, if_false]
      exact List.prefix_rfl
    · simp only [hargs, Bool.not_false, if_true]
      by_cases hres : (oracle st.k).returncode = 0
      · simp only [hres, if_true]
        simp
      · simp only [hres, if_false]
        exact List.prefix_rfl

/-- Auxiliary: the pip/uv stage only appends to the outcome list. -/
theorem pipStage_installed_pfx (ctx : Ctx) (oracle : Oracle)
    (e f : Option (List Str)) (d : Directive) (acc : Acc) :
    acc.installed_packages <+: (pipStage ctx oracle e f d acc).installed_packages := by
  unfold pipStage
  cases hrq : d.require with
  | none => exact List.prefix_rfl
  | some require =>
    dsimp only
    by_cases hfe : (pipFlagArgs d require.name).isEmpty
    · simp only [hfe, Bool.not_true, Bool.false_eq_true, if_false]
      exact List.prefix_rfl
    · simp only [hfe, Bool.not_false, if_true, runProc]
      by_cases h1 : (oracle acc.st.k).returncode = 0
      · simp only [h1, if_true]
        simp
      · simp only [h1, if_false]
        by_cases h2 : (!ctx.is_final_version && !d.pre_release) = true
        · simp only [h2, if_true]
          by_cases h3 : (oracle (acc.st.k + 1)).returncode = 0
          · simp [h3]
          · simp only [h3, if_false]
            exact List.prefix_rfl
        · rw [if_neg (by simpa using h2)]

/-- Auxiliary: processing one requirement line only appends to the outcome
list. -/
theorem processReq_installed_pfx (ctx : Ctx) (oracle : Oracle)
    (e f : Option (List Str)) (acc : Acc) (req : Str) :
    acc.installed_packages <+: (processReq ctx oracle e f acc req).installed_packages := by
  unfold processReq
  by_cases hp : platformOk ctx (parseDirective ctx req).platform
  · by_cases hpy : pySkipPython ctx (parseDirective ctx req).python_version
    · simp only [hp, hpy, Bool.not_true, Bool.false_eq_true, if_false, if_true]
      exact List.prefix_rfl
    · simp only [hp, hpy, Bool.not_true, Bool.false_eq_true, if_false, if_true]
      by_cases hconda : ctx.is_conda
      · simp only [hconda, if_true]
        exact condaBranch_installed_pfx ctx oracle e (parseDirective ctx req) acc
      · simp only [hconda, Bool.false_eq_true, if_false]
        by_cases hmingw : ctx.is_mingw
        · simp only [hmingw, if_true]
          cases hrq : mingwRequire ctx (parseDirective ctx req) with
          | none => exact List.prefix_rfl
          | some require =>
            dsimp only
            generalize mingwLoop ctx oracle (msys2Candidates require.name) acc.st = pr
            obtain ⟨st2, found⟩ := pr
            cases found with
            | some package =>
              dsimp only
              simp
            | none =>
              dsimp only
              exact pipStage_installed_pfx ctx oracle e f
                { parseDirective ctx req with require := some require }
                { acc with st := st2 }
        · simp only [hmingw, Bool.false_eq_true, if_false]
          exact pipStage_installed_pfx ctx oracle e f _ _
  · simp only [hp, Bool.not_true, if_true]
    exact List.prefix_rfl

/-- Claim C4 amended: the requirement lines are first converted to a set,
so each distinct line is processed once and duplicates are collapsed (the
model fixes the implementation-defined CPython set order as first
occurrence).  Across the sequentially processed directives the outcome list
is append-only, so it mirrors the order in which the directives were
actually processed, and the whole call is invariant under the
deduplication. -/
theorem c4_amended :
    (∀ l : List Str, (pySet l).Nodup ∧ (∀ x : Str, x ∈ pySet l ↔ x ∈ l)) ∧
    (∀ (ctx : Ctx) (oracle : Oracle) (e f : Option (List Str)) (acc : Acc) (req : Str),
      acc.installed_packages <+: (processReq ctx oracle e f acc req).installed_packages) ∧
    (∀ (ctx : Ctx) (oracle : Oracle) (reqs : List Str) (e f : Option (List Str)),
      install_requirements ctx oracle reqs e f
        = install_requirements ctx oracle (pySet reqs) e f) := by
  refine ⟨fun l => ⟨pySet_nodup l, fun x => pySet_mem l x⟩,
    fun ctx oracle e f acc req => processReq_installed_pfx ctx oracle e f acc req,
    fun ctx oracle reqs e f => ?_⟩
  unfold install_requirements
  rw [pySet_of_nodup (pySet reqs) (pySet_nodup reqs)]

/-!  Claim C9: PIP_UPGRADE makes every directive an individual upgrade.  -/

/-- Auxiliary: no parse token ever clears the upgrade flag. -/
theorem parseToken_upgrade (ctx : Ctx) (d : Directive) (t : Str) (h : d.upgrade = true) :
    (parseToken ctx d t).upgrade = true := by
  unfold parseToken
  repeat' split
  all_goals first | exact h | rfl

/-- Auxiliary: with PIP_UPGRADE truthy every parsed directive carries the
upgrade flag. -/
theorem parseDirective_upgrade (ctx : Ctx) (req : Str) (h : ctx.pip_upgrade = true) :
    (parseDirective ctx req).upgrade = true := by
  unfold parseDirective
  have hgen : ∀ (ts : List Str) (d : Directive), d.upgrade = true →
      (ts.foldl (parseToken ctx) d).upgrade = true := by
    intro ts
    induction ts with
    | nil => intro d hd; exact hd
    | cons t ts ih =>
      intro d hd
      exact ih _ (parseToken_upgrade ctx d t hd)
  exact hgen _ _ h

/-- Auxiliary: an upgrade directive contributes the --upgrade argument and a
non-empty flag argument list. -/
theorem pipFlagArgs_upgrade (d : Directive) (name : Str) (h : d.upgrade = true) :
    lit "--upgrade" ∈ pipFlagArgs d name ∧ (pipFlagArgs d name).isEmpty = false := by
  unfold pipFlagArgs
  rw [h]
  constructor
  · simp
  · simp

/-- Auxiliary: the full individual argument vector of an upgrade directive
contains --upgrade. -/
theorem pipIndivArgs_upgrade (ctx : Ctx) (e f : Option (List Str))
    (d : Directive) (require : Req) (h : d.upgrade = true) :
    lit "--upgrade" ∈ pipIndivArgs ctx e f d require := by
  have hmem := (pipFlagArgs_upgrade d require.name h).1
  unfold pipIndivArgs
  simp only [List.mem_append]
  tauto

/-- Auxiliary: under an upgrade directive the pip/uv stage keeps both queues
empty and every new invocation carries --upgrade. -/
theorem c9_pipStage_inv (ctx : Ctx) (oracle : Oracle) (e f : Option (List Str))
    (d : Directive) (acc : Acc)
    (hd : d.upgrade = true)
    (hpk : acc.pip_pkgs = []) (hck : acc.conda_pkgs = [])
    (htr : ∀ inv ∈ acc.st.trace, lit "--upgrade" ∈ inv.args) :
    (pipStage ctx oracle e f d acc).pip_pkgs = [] ∧
    (pipStage ctx oracle e f d acc).conda_pkgs = [] ∧
    ∀ inv ∈ (pipStage ctx oracle e f d acc).st.trace, lit "--upgrade" ∈ inv.args := by
  unfold pipStage
  cases hrq : d.require with
  | none => exact ⟨hpk, hck, htr⟩
  | some require =>
    dsimp only
    have hfa := pipFlagArgs_upgrade d require.name hd
    have hargs := pipIndivArgs_upgrade ctx e f d require hd
    simp only [hfa.2, Bool.not_false, if_true, runProc]
    by_cases h1 : (oracle acc.st.k).returncode = 0
    · simp only [h1, if_true]
      refine ⟨hpk, hck, ?_⟩
      intro inv hinv
      rcases List.mem_append.mp hinv with h | h
      · exact htr inv h
      · rcases List.mem_singleton.mp h with rfl
        exact hargs
    · simp only [h1, if_false]
      by_cases h2 : (!ctx.is_final_version && !d.pre_release) = true
      · simp only [h2, if_true, runProc]
        by_cases h3 : (oracle (acc.st.k + 1)).returncode = 0 <;>
        · simp only [h3, if_true, if_false]
          refine ⟨hpk, hck, ?_⟩
          intro inv hinv
          rcases List.mem_append.mp hinv with h | h
          · rcases List.mem_append.mp h with h4 | h4
            · exact htr inv h4
            · rcases List.mem_singleton.mp h4 with rfl
              exact hargs
          · rcases List.mem_singleton.mp h with rfl
            exact hargs
      · rw [if_neg (by simpa using h2)]
        refine ⟨hpk, hck, ?_⟩
        intro inv hinv
        rcases List.mem_append.mp hinv with h | h
        · exact htr inv h
        · rcases List.mem_singleton.mp h with rfl
          exact hargs

/-- Auxiliary: on the pip/uv backend with PIP_UPGRADE truthy, processing one
line keeps both queues empty and every recorded invocation carries
--upgrade. -/
theorem c9_processReq_inv (ctx : Ctx) (oracle : Oracle) (e f : Option (List Str))
    (acc : Acc) (req : Str)
    (hup : ctx.pip_upgrade = true) (hc : ctx.is_conda = false) (hm : ctx.is_mingw = false)
    (hpk : acc.pip_pkgs = []) (hck : acc.conda_pkgs = [])
    (htr : ∀ inv ∈ acc.st.trace, lit "--upgrade" ∈ inv.args) :
    (processReq ctx oracle e f acc req).pip_pkgs = [] ∧
    (processReq ctx oracle e f acc req).conda_pkgs = [] ∧
    ∀ inv ∈ (processReq ctx oracle e f acc req).st.trace, lit "--upgrade" ∈ inv.args := by
  unfold processReq
  by_cases hp : platformOk ctx (parseDirective ctx req).platform
  · by_cases hpy : pySkipPython ctx (parseDirective ctx req).python_version
    · simp only [hp, hpy, Bool.not_true, Bool.false_eq_true, if_false, if_true]
      exact ⟨hpk, hck, htr⟩
    · simp only [hp, hpy, Bool.not_true, Bool.false_eq_true, if_false, if_true,
        hc, hm]
      exact c9_pipStage_inv ctx oracle e f (parseDirective ctx req) acc
        (parseDirective_upgrade ctx req hup) hpk hck htr
  · simp only [hp, Bool.not_true, if_true]
    exact ⟨hpk, hck, htr⟩

/-- Auxiliary: the invariant of c9_processReq_inv is preserved over the whole
requirement fold. -/
theorem c9_fold_inv (ctx : Ctx) (oracle : Oracle) (e f : Option (List Str))
    (hup : ctx.pip_upgrade = true) (hc : ctx.is_conda = false) (hm : ctx.is_mingw = false) :
    ∀ (reqs : List Str) (acc : Acc),
      acc.pip_pkgs = [] → acc.conda_pkgs = [] →
      (∀ inv ∈ acc.st.trace, lit "--upgrade" ∈ inv.args) →
      (reqs.foldl (processReq ctx oracle e f) acc).pip_pkgs = [] ∧
      (reqs.foldl (processReq ctx oracle e f) acc).conda_pkgs = [] ∧
      ∀ inv ∈ (reqs.foldl (processReq ctx oracle e f) acc).st.trace,
        lit "--upgrade" ∈ inv.args := by
  intro reqs
  induction reqs with
  | nil => intro acc hpk hck htr; exact ⟨hpk, hck, htr⟩
  | cons r rs ih =>
    intro acc hpk hck htr
    simp only [List.foldl_cons]
    have hstep := c9_processReq_inv ctx oracle e f acc r hup hc hm hpk hck htr
    exact ih _ hstep.1 hstep.2.1 hstep.2.2

/-- Claim C9: the upgrade flag defaults to the truthiness of PIP_UPGRADE, so
when PIP_UPGRADE is truthy every directive on the pip/uv backend behaves as
if it carried --upgrade: the batch queue stays empty for the whole call (the
batched pathway is never used) and every subprocess invocation made carries
an --upgrade argument. -/
theorem c9_pip_upgrade (ctx : Ctx) (oracle : Oracle) (requires : List Str)
    (e f : Option (List Str)) (inv : Invocation)
    (hup : ctx.pip_upgrade = true) (hc : ctx.is_conda = false) (hm : ctx.is_mingw = false) :
    (install_requirements ctx oracle requires e f).pip_pkgs = [] ∧
    (inv ∈ (install_requirements ctx oracle requires e f).st.trace →
      lit "--upgrade" ∈ inv.args) := by
  unfold install_requirements
  dsimp only
  have hfold := c9_fold_inv ctx oracle e f hup hc hm (pySet requires)
    { st := { trace := [], k := 0 }, installed_packages := [],
      conda_pkgs := [], pip_pkgs := [] } rfl rfl (by intro i hi; simp at hi)
  have hbatchp : pipBatch ctx oracle e f
      ((pySet requires).foldl (processReq ctx oracle e f)
        { st := { trace := [], k := 0 }, installed_packages := [],
          conda_pkgs := [], pip_pkgs := [] })
      = (pySet requires).foldl (processReq ctx oracle e f)
        { st := { trace := [], k := 0 }, installed_packages := [],
          conda_pkgs := [], pip_pkgs := [] } := by
    unfold pipBatch
    simp [hfold.1]
  have hbatchc : ∀ acc2 : Acc, acc2.conda_pkgs = [] → condaBatch ctx oracle acc2 = acc2 := by
    intro acc2 h2
    unfold condaBatch
    simp [h2]
  rw [hbatchp, hbatchc _ hfold.2.1]
  exact ⟨hfold.1, fun hmem => hfold.2.2 inv hmem⟩

/-- Witness for claim C9: under the PIP_UPGRADE context the line foo is
installed by one individual invocation carrying --upgrade, and the batch
queue ends empty. -/
theorem c9_witness :
    ctxUp.pip_upgrade = true ∧
    (install_requirements ctxUp oracleOk [lit "foo"] none none).pip_pkgs = [] ∧
    invUp ∈ (install_requirements ctxUp oracleOk [lit "foo"] none none).st.trace ∧
    lit "--upgrade" ∈ invUp.args :=
  ⟨rfl,
   (c9_pip_upgrade ctxUp oracleOk [lit "foo"] none none invUp rfl rfl rfl).1,
   by decide,
   (c9_pip_upgrade ctxUp oracleOk [lit "foo"] none none invUp rfl rfl rfl).2 (by decide)⟩

/-!  Claim C7: private environment copies for pip/uv subprocesses.  -/

/-- Auxiliary: setting one variable leaves lookups of every other variable
unchanged. -/
theorem envGet_envSet_ne (e : Env) (k1 v k : Str) (hk : k ≠ k1) :
    envGet (envSet e k1 v) k = envGet e k := by
  induction e with
  | nil =>
    unfold envSet envGet
    rw [if_neg (fun h => hk h.symm)]
    rfl
  | cons p rest ih =>
    obtain ⟨k0, v0⟩ := p
    unfold envSet
    by_cases h0 : k0 = k1
    · rw [if_pos h0]
      unfold envGet
      rw [if_neg (by rw [h0]; exact fun h => hk h.symm), if_neg (by rw [h0]; exact fun h => hk h.symm)]
    · rw [if_neg h0]
      unfold envGet
      by_cases hk0 : k0 = k
      · rw [if_pos hk0, if_pos hk0]
      · rw [if_neg hk0, if_neg hk0]
        exact ih

/-- Auxiliary: a key outside envOkayKeys differs from each of the three
override keys. -/
theorem envOkayKeys_split (k : Str) (hk : k ∉ envOkayKeys) :
    k ≠ lit "UV_PYTHON" ∧ k ≠ lit "PIP_PRE" ∧ k ≠ lit "UV_PRERELEASE" := by
  unfold envOkayKeys at hk
  simp only [List.mem_cons, List.mem_singleton, not_or] at hk
  exact ⟨hk.1, hk.2.1, by simpa using hk.2.2⟩

/-- Auxiliary: the base pip environment copy agrees with os.environ outside
the override keys. -/
theorem pipBaseEnv_agree (ctx : Ctx) (k : Str) (hk : k ∉ envOkayKeys) :
    envGet (pipBaseEnv ctx) k = envGet ctx.os_environ k := by
  obtain ⟨h1, h2, h3⟩ := envOkayKeys_split k hk
  unfold pipBaseEnv
  rw [envGet_envSet_ne _ _ _ _ h1]

/-- Auxiliary: the per-directive pip environment copy agrees with os.environ
outside the override keys. -/
theorem pipDirectiveEnv_agree (ctx : Ctx) (d : Directive) (k : Str) (hk : k ∉ envOkayKeys) :
    envGet (pipDirectiveEnv ctx d) k = envGet ctx.os_environ k := by
  obtain ⟨h1, h2, h3⟩ := envOkayKeys_split k hk
  unfold pipDirectiveEnv
  by_cases hpre : d.pre_release
  · rw [if_pos hpre, envGet_envSet_ne _ _ _ _ h3, envGet_envSet_ne _ _ _ _ h2]
    exact pipBaseEnv_agree ctx k hk
  · rw [if_neg hpre]
    exact pipBaseEnv_agree ctx k hk

/-- Auxiliary: the retry environment copy agrees with os.environ outside the
override keys. -/
theorem pipRetryEnv_agree (ctx : Ctx) (d : Directive) (k : Str) (hk : k ∉ envOkayKeys) :
    envGet (pipRetryEnv ctx d) k = envGet ctx.os_environ k := by
  obtain ⟨h1, h2, h3⟩ := envOkayKeys_split k hk
  unfold pipRetryEnv
  rw [envGet_envSet_ne _ _ _ _ h3, envGet_envSet_ne _ _ _ _ h2]
  exact pipDirectiveEnv_agree ctx d k hk

/-- Auxiliary: an invocation inheriting the process environment respects the
environment-copy discipline vacuously. -/
theorem envOkay_none (ctx : Ctx) (args : List Str) :
    envOkay ctx { args := args, env := none } :=
  fun _ he => nomatch he

/-- Auxiliary: an invocation whose environment agrees with os.environ
outside the override keys respects the discipline. -/
theorem envOkay_some (ctx : Ctx) (args : List Str) (en : Env)
    (h : ∀ k, k ∉ envOkayKeys → envGet en k = envGet ctx.os_environ k) :
    envOkay ctx { args := args, env := some en } := by
  intro e he k hk
  have hee : en = e := Option.some.inj he
  subst hee
  exact h k hk

/-- Auxiliary: recording one disciplined invocation preserves the trace
discipline. -/
theorem traceOkay_runProc (ctx : Ctx) (oracle : Oracle) (st : St)
    (args : List Str) (env : Option Env)
    (h : traceOkay ctx st)
    (henv : envOkay ctx { args := args, env := env }) :
    traceOkay ctx (runProc oracle st args env).2 := by
  intro inv hinv
  simp only [runProc] at hinv
  rcases List.mem_append.mp hinv with h1 | h1
  · exact h inv h1
  · rcases List.mem_singleton.mp h1 with rfl
    exact henv

/-- Auxiliary: the conda search loop only records env-less invocations. -/
theorem condaSearchLoop_traceOkay (ctx : Ctx) (oracle : Oracle) (reqName : Str) :
    ∀ (urls : List Str) (st : St) (args : List Str), traceOkay ctx st →
      traceOkay ctx (condaSearchLoop ctx oracle reqName urls st args).2 := by
  intro urls
  induction urls with
  | nil => intro st args h; exact h
  | cons u us ih =>
    intro st args h
    unfold condaSearchLoop
    dsimp only
    apply ih
    exact traceOkay_runProc ctx oracle st _ none h (envOkay_none ctx _)

/-- Auxiliary: the pacman candidate loop only records env-less
invocations. -/
theorem mingwLoop_traceOkay (ctx : Ctx) (oracle : Oracle) :
    ∀ (names : List Str) (st : St), traceOkay ctx st →
      traceOkay ctx (mingwLoop ctx oracle names st).1 := by
  intro names
  induction names with
  | nil => intro st h; exact h
  | cons n ns ih =>
    intro st h
    unfold mingwLoop
    dsimp only
    split
    · exact ih _ (traceOkay_runProc ctx oracle st _ none h (envOkay_none ctx _))
    · split
      · exact traceOkay_runProc ctx oracle st _ none h (envOkay_none ctx _)
      · split
        · exact traceOkay_runProc ctx oracle _ _ none
            (traceOkay_runProc ctx oracle st _ none h (envOkay_none ctx _))
            (envOkay_none ctx _)
        · exact ih _ (traceOkay_runProc ctx oracle _ _ none
            (traceOkay_runProc ctx oracle st _ none h (envOkay_none ctx _))
            (envOkay_none ctx _))

/-- Auxiliary: the Conda branch preserves the trace discipline. -/
theorem condaBranch_traceOkay (ctx : Ctx) (oracle : Oracle)
    (extra : Option (List Str)) (d : Directive) (acc : Acc)
    (h : traceOkay ctx acc.st) :
    traceOkay ctx (condaBranch ctx oracle extra d acc).st := by
  unfold condaBranch
  cases hcr : condaRequire ctx d with
  | none => exact h
  | some require =>
    dsimp only
    have hsearch : traceOkay ctx
        (if otruthy extra = true then
          condaSearchLoop ctx oracle require.name (oget extra) acc.st []
        else ([], acc.st)).2 := by
      split
      · exact condaSearchLoop_traceOkay ctx oracle require.name _ _ _ h
      · exact h
    generalize hpr : (if otruthy extra = true then
        condaSearchLoop ctx oracle require.name (oget extra) acc.st []
      else ([], acc.st)) = pr
    rw [hpr] at hsearch
    obtain ⟨args, st⟩ := pr
    dsimp only at hsearch
    by_cases hargs : args.isEmpty
    · simp only [hargs, Bool.not_true, Bool.false_eq_true, if_false]
      exact hsearch
    · simp only [hargs, Bool.not_false, if_true, runProc]
      by_cases hres : (oracle st.k).returncode = 0
      · simp only [hres, if_true]
        intro inv hinv
        rcases List.mem_append.mp hinv with h1 | h1
        · exact hsearch inv h1
        · rcases List.mem_singleton.mp h1 with rfl
          exact envOkay_none ctx _
      · simp only [hres, if_false]
        intro inv hinv
        rcases List.mem_append.mp hinv with h1 | h1
        · exact hsearch inv h1
        · rcases List.mem_singleton.mp h1 with rfl
          exact envOkay_none ctx _

/-- Auxiliary: the pip/uv stage preserves the trace discipline: its
invocations carry the directive or retry environment copies. -/
theorem pipStage_traceOkay (ctx : Ctx) (oracle : Oracle)
    (e f : Option (List Str)) (d : Directive) (acc : Acc)
    (h : traceOkay ctx acc.st) :
    traceOkay ctx (pipStage ctx oracle e f d acc).st := by
  unfold pipStage
  cases hrq : d.require with
  | none => exact h
  | some require =>
    dsimp only
    by_cases hfe : (pipFlagArgs d require.name).isEmpty
    · simp only [hfe, Bool.not_true, Bool.false_eq_true, if_false]
      exact h
    · simp only [hfe, Bool.not_false, if_true, runProc]
      have hok1 : envOkay ctx
          { args := pipIndivArgs ctx e f d require,
            env := some (pipDirectiveEnv ctx d) } :=
        envOkay_some ctx _ _ (fun k hk => pipDirectiveEnv_agree ctx d k hk)
      have hok2 : envOkay ctx
          { args := pipIndivArgs ctx e f d require,
            env := some (pipRetryEnv ctx d) } :=
        envOkay_some ctx _ _ (fun k hk => pipRetryEnv_agree ctx d k hk)
      have hstep1 : traceOkay ctx
          (runProc oracle acc.st (pipIndivArgs ctx e f d require)
            (some (pipDirectiveEnv ctx d))).2 :=
        traceOkay_runProc ctx oracle acc.st _ _ h hok1
      by_cases h1 : (oracle acc.st.k).returncode = 0
      · simp only [h1, if_true]
        exact hstep1
      · simp only [h1, if_false]
        by_cases h2 : (!ctx.is_final_version && !d.pre_release) = true
        · simp only [h2, if_true, runProc]
          by_cases h3 : (oracle (acc.st.k + 1)).returncode = 0 <;>
          · simp only [h3, if_true, if_false]
            intro inv hinv
            simp only [runProc] at hstep1
            rcases List.mem_append.mp hinv with h4 | h4
            · rcases List.mem_append.mp h4 with h5 | h5
              · exact h inv h5
              · rcases List.mem_singleton.mp h5 with rfl
                exact hok1
            · rcases List.mem_singleton.mp h4 with rfl
              exact hok2
        · rw [if_neg (by simpa using h2)]
          exact hstep1

/-- Auxiliary: processing one requirement line preserves the trace
discipline. -/
theorem processReq_traceOkay (ctx : Ctx) (oracle : Oracle)
    (e f : Option (List Str)) (acc : Acc) (req : Str)
    (h : traceOkay ctx acc.st) :
    traceOkay ctx (processReq ctx oracle e f acc req).st := by
  unfold processReq
  by_cases hp : platformOk ctx (parseDirective ctx req).platform
  · by_cases hpy : pySkipPython ctx (parseDirective ctx req).python_version
    · simp only [hp, hpy, Bool.not_true, Bool.false_eq_true, if_false, if_true]
      exact h
    · simp only [hp, hpy, Bool.not_true, Bool.false_eq_true, if_false, if_true]
      by_cases hconda : ctx.is_conda
      · simp only [hconda, if_true]
        exact condaBranch_traceOkay ctx oracle e (parseDirective ctx req) acc h
      · simp only [hconda, Bool.false_eq_true, if_false]
        by_cases hmingw : ctx.is_mingw
        · simp only [hmingw, if_true]
          cases hrq : mingwRequire ctx (parseDirective ctx req) with
          | none => exact h
          | some require =>
            dsimp only
            have hloop := mingwLoop_traceOkay ctx oracle
              (msys2Candidates require.name) acc.st h
            generalize hpr : mingwLoop ctx oracle (msys2Candidates require.name) acc.st = pr
            rw [hpr] at hloop
            obtain ⟨st2, found⟩ := pr
            dsimp only at hloop
            cases found with
            | some package =>
              dsimp only
              exact hloop
            | none =>
              dsimp only
              exact pipStage_traceOkay ctx oracle e f
                { parseDirective ctx req with require := some require }
                { acc with st := st2 } hloop
        · simp only [hmingw, Bool.false_eq_true, if_false]
          exact pipStage_traceOkay ctx oracle e f _ _ h
  · simp only [hp, Bool.not_true, if_true]
    exact h

/-- Auxiliary: the whole requirement fold preserves the trace discipline. -/
theorem fold_traceOkay (ctx : Ctx) (oracle : Oracle) (e f : Option (List Str)) :
    ∀ (reqs : List Str) (acc : Acc), traceOkay ctx acc.st →
      traceOkay ctx (reqs.foldl (processReq ctx oracle e f) acc).st := by
  intro reqs
  induction reqs with
  | nil => intro acc h; exact h
  | cons r rs ih =>
    intro acc h
    simp only [List.foldl_cons]
    exact ih _ (processReq_traceOkay ctx oracle e f acc r h)

/-- Auxiliary: the batched pip install runs under the base environment copy
and preserves the trace discipline. -/
theorem pipBatch_traceOkay (ctx : Ctx) (oracle : Oracle)
    (e f : Option (List Str)) (acc : Acc) (h : traceOkay ctx acc.st) :
    traceOkay ctx (pipBatch ctx oracle e f acc).st := by
  unfold pipBatch
  by_cases hpk : acc.pip_pkgs.isEmpty
  · simp only [hpk, Bool.not_true, Bool.false_eq_true, if_false]
    exact h
  · simp only [hpk, Bool.not_false, if_true, runProc]
    have hok : envOkay ctx
        { args := pip_install ctx ++ pipBatchOpts e f ++ acc.pip_pkgs,
          env := some (pipBaseEnv ctx) } :=
      envOkay_some ctx _ _ (fun k hk => pipBaseEnv_agree ctx k hk)
    by_cases hres : (oracle acc.st.k).returncode = 0 <;>
    · simp only [hres, if_true, if_false]
      intro inv hinv
      rcases List.mem_append.mp hinv with h1 | h1
      · exact h inv h1
      · rcases List.mem_singleton.mp h1 with rfl
        exact hok

/-- Auxiliary: the batched conda install inherits the process environment
and preserves the trace discipline. -/
theorem condaBatch_traceOkay (ctx : Ctx) (oracle : Oracle)
    (acc : Acc) (h : traceOkay ctx acc.st) :
    traceOkay ctx (condaBatch ctx oracle acc).st := by
  unfold condaBatch
  by_cases hck : acc.conda_pkgs.isEmpty
  · simp only [hck, Bool.not_true, Bool.false_eq_true, if_false]
    exact h
  · simp only [hck, Bool.not_false, if_true, runProc]
    by_cases hres : (oracle acc.st.k).returncode = 0 <;>
    · simp only [hres, if_true, if_false]
      intro inv hinv
      rcases List.mem_append.mp hinv with h1 | h1
      · exact h inv h1
      · rcases List.mem_singleton.mp h1 with rfl
        exact envOkay_none ctx _

/-- Claim C7: every subprocess invocation of install_requirements that
receives an environment receives a private copy that agrees with the global
os.environ on every key other than the per-call overrides UV_PYTHON,
PIP_PRE and UV_PRERELEASE; the global environment itself is never written
(the context is read-only in the model, as in the code, which only ever
copies it), so no override leaks into any other invocation. -/
theorem c7_env_frame (ctx : Ctx) (oracle : Oracle) (requires : List Str)
    (e f : Option (List Str)) (inv : Invocation) (en : Env) (k : Str)
    (hinv : inv ∈ (install_requirements ctx oracle requires e f).st.trace)
    (hen : inv.env = some en)
    (hk : k ∉ envOkayKeys) :
    envGet en k = envGet ctx.os_environ k := by
  have hok : traceOkay ctx (install_requirements ctx oracle requires e f).st := by
    unfold install_requirements
    dsimp only
    apply condaBatch_traceOkay
    apply pipBatch_traceOkay
    apply fold_traceOkay
    intro i hi
    simp at hi
  exact hok inv hinv en hen k hk

/-- Witness for claim C7: the batched invocation for the line foo receives
an environment that still maps HOME to its global value. -/
theorem c7_witness :
    invFoo ∈ (install_requirements ctxPip oracleOk [lit "foo"] none none).st.trace ∧
    invFoo.env = some envFoo ∧
    lit "HOME" ∉ envOkayKeys ∧
    envGet envFoo (lit "HOME") = envGet ctxPip.os_environ (lit "HOME") :=
  ⟨by decide, by decide, by decide,
   c7_env_frame ctxPip oracleOk [lit "foo"] none none invFoo envFoo (lit "HOME")
     (by decide) (by decide) (by decide)⟩
